import Mathlib

/-!
Shallow embedding of the harvest-agents batch pipeline scripts and proofs
about the resumable concurrent batch-processing pattern they implement.

Embedded sources:
* `src/agent_email_search.py` — query generation, completion filtering,
  the bounded-retry HTTP loop, and the per-item wrapper that writes one
  JSON file per agent id.
* `src/scrape_realtor_agents_by_zipcode.py` — per-zipcode scraping with
  file-existence resume.
* `src/filter_zipcodes.py` — dataframe row filtering.
* `src/data_wrangling/enhance_realtor_agents.py` — per-file column
  enhancement from the zipcode reference table.

Machine-level conventions: Python strings are Lean `String`s (character
lists where kernel evaluation is needed), pandas NaN cells are `Option`
`none`, floats are `ℚ`, exceptions are explicit constructors, and the
thread/process pools are a step relation on an explicit scheduler state.
-/

namespace AgentEmailSearch

/-- The exception classes distinguished by `search` in
`src/agent_email_search.py`: the caught tuple
`(http.client.HTTPException, ConnectionError, TimeoutError)` plus any
other exception, which the `try` block does not catch. -/
inductive PyExc where
  | httpException
  | connectionError
  | timeoutError
  | other (msg : String)
deriving DecidableEq, Repr

/-- Message text attached to an exception, used in the strings the
scripts build with `str(e)`. -/
def excMsg : PyExc → String
  | .httpException => "HTTPException"
  | .connectionError => "ConnectionError"
  | .timeoutError => "TimeoutError"
  | .other m => m

/-- Whether the exception is in the tuple caught by the `except` clause of
`search` (line 175 of `src/agent_email_search.py`). -/
def retryable : PyExc → Bool
  | .httpException => true
  | .connectionError => true
  | .timeoutError => true
  | .other _ => false

/-- One attempt of the HTTP request inside `search`: either a response
(with its status code and body) or a raised exception.  The code reads
`res.read()` without ever inspecting `res.status`, which is what claims
C2 and C5 are about. -/
inductive HttpAttempt where
  | response (status : Nat) (body : String)
  | exc (e : PyExc)
deriving DecidableEq, Repr

/-- How the `search` call terminates. `ok` is the `return data` path,
`raised` is the `raise Exception(f"Failed after ...")` path, `uncaught`
is an exception outside the caught classes propagating out of the loop,
and `fellThrough` is the implicit `return None` when the `while` loop
never runs (only possible with `max_retries = 0`). -/
inductive SearchResult where
  | ok (data : String)
  | raised (msg : String)
  | uncaught (e : PyExc)
  | fellThrough
deriving DecidableEq, Repr

/-- Observable record of one `search` call: its result, the list of sleep
durations performed between attempts (in seconds, in order), and the list
of attempt indices at which the request was issued. -/
structure SearchRun where
  result : SearchResult
  sleeps : List Nat
  attempts : List Nat
deriving DecidableEq, Repr

/-- The message of the exception raised when retries are exhausted,
`f"Failed after {max_retries} attempts: {str(e)}"`. -/
def failMsg (maxRetries : Nat) (e : PyExc) : String :=
  "Failed after " ++ toString maxRetries ++ " attempts: " ++ excMsg e

/-- The retry loop of `search` (lines 149-184 of
`src/agent_email_search.py`), with the current attempt index and the
remaining loop fuel `maxRetries - attempt` made explicit.  Mirrors:
`while attempt < max_retries` / on caught exception `attempt += 1`;
`if attempt == max_retries: raise`; otherwise `time.sleep(1)` and loop. -/
def searchAux (op : Nat → HttpAttempt) (maxRetries : Nat) :
    Nat → Nat → SearchRun
  | _, 0 => ⟨.fellThrough, [], []⟩
  | attempt, fuel + 1 =>
    match op attempt with
    | .response _ body => ⟨.ok body, [], [attempt]⟩
    | .exc e =>
      if retryable e then
        if attempt + 1 = maxRetries then
          ⟨.raised (failMsg maxRetries e), [], [attempt]⟩
        else
          let r := searchAux op maxRetries (attempt + 1) fuel
          ⟨r.result, 1 :: r.sleeps, attempt :: r.attempts⟩
      else ⟨.uncaught e, [], [attempt]⟩

/-- `search(query, api_key, num_results, location, max_retries)` of
`src/agent_email_search.py`, abstracted over the network: `op i` is what
the HTTP request does on attempt `i`. -/
def search (op : Nat → HttpAttempt) (maxRetries : Nat) : SearchRun :=
  searchAux op maxRetries 0 maxRetries

/-- One row of an input agent CSV as `main` sees it after
`df_agents['id'] = df_agents['id'].astype(str)`: the id is already a
string, and the query-contributing fields are optional (pandas NaN is
`none`). -/
structure AgentRow where
  id : String
  name : Option String
  company : Option String
  city : Option String
  zipcode : Option String
  county : Option String
deriving DecidableEq, Repr

/-- Whitespace test matching Python `str.strip`'s default set on the
characters appearing in this data. -/
def isSpaceChar (c : Char) : Bool :=
  c == ' ' || c == '\t' || c == '\n' || c == '\r'

/-- Python `str.strip()` on a Lean string. -/
def stripStr (s : String) : String :=
  String.mk (((s.data.dropWhile isSpaceChar).reverse.dropWhile isSpaceChar).reverse)

/-- `row['Name'].strip() if pd.notna(row['Name']) else ''`. -/
def stripField : Option String → String
  | some s => stripStr s
  | none => ""

/-- Wrap a string in double quotes, as the f-strings in
`generate_search_query` do. -/
def quoted (s : String) : String := "\"" ++ s ++ "\""

/-- `generate_search_query(row)` of `src/agent_email_search.py`
(lines 89-123): quoted name, company and city when present and nonempty,
then the literal `(email OR contact)`, joined by single spaces. -/
def generate_search_query (row : AgentRow) : String :=
  let name := stripField row.name
  let company := stripField row.company
  let city := stripField row.city
  let parts :=
    (if name ≠ "" then [quoted name] else []) ++
    (if company ≠ "" then [quoted company] else []) ++
    (if city ≠ "" then [quoted city] else []) ++
    ["(email OR contact)"]
  String.intercalate " " parts

/-- Whether the output directory already holds the result file
`f"{agent_uuid}.json"` for an id.  `files` is the listing of the output
directory. -/
def hasFile (files : List String) (agentId : String) : Bool :=
  files.contains (agentId ++ ".json")

/-- `generate_search_tuples(df, output_dir)` (lines 126-141): keep the
`(id, query)` pair exactly when `os.path.exists` is false for the id's
output file; otherwise print a skip message and drop the row. -/
def generate_search_tuples (df : List AgentRow) (files : List String) :
    List (String × String) :=
  df.filterMap (fun row =>
    if hasFile files row.id then none
    else some (row.id, generate_search_query row))

/-- Successive observable states of the output file for one id during a
run of `search_wrapper`.  `open(filepath, 'w')` creates (or truncates) the
file immediately, `json.dump` then fills it in place: there is no
temporary-file-plus-rename step in the code, so an intermediate
`inProgress` state is observable at the final path. -/
inductive FileState where
  | absent
  | inProgress (written : String)
  | complete (content : String)
deriving DecidableEq, Repr

/-- Is the file state one the resumability story allows a reader to see:
either nothing, or a finished record? -/
def completeOrAbsent : FileState → Bool
  | .absent => true
  | .inProgress _ => false
  | .complete _ => true

/-- Result of one `search_wrapper` call: the string it returns to the
scheduler, and the sequence of states the output file for the id passes
through during the call (starting from `absent`; an interrupted call
leaves the file in whichever state was current). -/
structure WrapperRun where
  outcome : String
  states : List FileState
deriving DecidableEq, Repr

/-- `f"Completed search for agent_uuid: {agent_uuid}"`. -/
def successMsg (agentId : String) : String :=
  "Completed search for agent_uuid: " ++ agentId

/-- `f"Error processing agent_uuid {agent_uuid}: {str(e)}"`. -/
def errorMsg (agentId reason : String) : String :=
  "Error processing agent_uuid " ++ agentId ++ ": " ++ reason

/-- `search_wrapper(args)` of `src/agent_email_search.py` (lines
187-204), abstracted over the network (`op`) and over `json.loads`
followed by `json.dump` (`parseDump`, which yields the serialized text
written to disk when the body parses, and `none` when `json.loads`
raises).  The wrapper calls `search` with its default `max_retries = 3`;
any exception — from `search`, from parsing, in principle from the write —
is caught and converted into the error string.  The file is only touched
on the success path, and there it is created empty and then filled in
place. -/
def search_wrapper (op : Nat → HttpAttempt) (parseDump : String → Option String)
    (agent_uuid : String) : WrapperRun :=
  match (search op 3).result with
  | .ok data =>
    match parseDump data with
    | some content =>
      ⟨successMsg agent_uuid, [.absent, .inProgress "", .complete content]⟩
    | none => ⟨errorMsg agent_uuid "JSONDecodeError", [.absent]⟩
  | .raised m => ⟨errorMsg agent_uuid m, [.absent]⟩
  | .uncaught e => ⟨errorMsg agent_uuid (excMsg e), [.absent]⟩
  | .fellThrough => ⟨errorMsg agent_uuid "TypeError", [.absent]⟩

/-- One raw CSV record as read by `pd.read_csv` before any coercion: the
`id` cell is `none` when the cell is empty (pandas NaN). -/
structure CsvRow where
  id : Option String
  name : Option String
  company : Option String
  city : Option String
  zipcode : Option String
  county : Option String
deriving DecidableEq, Repr

/-- One input CSV file as `main` sees it: whether the header has an `id`
column, and the records. -/
structure CsvFile where
  hasIdColumn : Bool
  rows : List CsvRow
deriving DecidableEq, Repr

/-- `df_agents['id'].astype(str)` on one cell: pandas renders a missing
value (NaN) as the string `"nan"`; a present string is unchanged. -/
def coerceId : Option String → String
  | some s => s
  | none => "nan"

/-- Convert a raw record to the row `generate_search_tuples` will see,
after `main`'s `astype(str)` coercion of the id column. -/
def toAgentRow (r : CsvRow) : AgentRow :=
  ⟨coerceId r.id, r.name, r.company, r.city, r.zipcode, r.county⟩

/-- The per-file branch of `main` (lines 54-77 of
`src/agent_email_search.py`): a file whose header lacks an `id` column is
skipped whole (`continue`); otherwise every record is enumerated, ids
coerced by `astype(str)`. -/
def enumerateFile (f : CsvFile) : List AgentRow :=
  if f.hasIdColumn then f.rows.map toAgentRow else []

/-- The work items enumerated across all input CSV files by `main`'s
sequential `for csv_file in csv_files` loop. -/
def enumerateFiles (fs : List CsvFile) : List AgentRow :=
  (fs.map enumerateFile).flatten

/-- A record carries a usable identifier in the sense of the spec's
WorkItem Source contract: a present, nonempty id cell. -/
def validId (r : CsvRow) : Bool :=
  match r.id with
  | some s => !s.isEmpty
  | none => false

end AgentEmailSearch

namespace Pool

/-- State of a bounded worker pool driving one batch: work items not yet
submitted to a worker, items currently executing, and the outcomes already
collected (in completion order, most recent first).  This is the shallow
embedding of `concurrent.futures.ThreadPoolExecutor(max_workers=k)` /
`ProcessPoolExecutor(max_workers=k)` together with the
`as_completed` collection loops of `parallel_search`
(`src/agent_email_search.py` lines 207-217), `process_csv_file`
(`src/structure_search_results.py` lines 181-196) and `main`
(`src/scrape_realtor_agents_by_zipcode.py` lines 222-234). -/
structure PoolState (τ ω : Type) where
  pending : List τ
  running : List τ
  done : List ω
deriving Repr

/-- One scheduling event of the pool with capacity `k` and task body
`exec`: a worker picks up the next submitted item only when fewer than `k`
are executing (the executor keeps at most `max_workers` worker
threads/processes), or a running item finishes and its outcome is
collected.  A finished item always contributes exactly one outcome,
whatever that outcome is — the collection loops never cancel siblings. -/
inductive PoolStep {τ ω : Type} [DecidableEq τ] (exec : τ → ω) (k : Nat) :
    PoolState τ ω → PoolState τ ω → Prop where
  | dispatch {t : τ} {pending running : List τ} {done : List ω}
      (h : running.length < k) :
      PoolStep exec k ⟨t :: pending, running, done⟩ ⟨pending, t :: running, done⟩
  | complete {t : τ} {pending running : List τ} {done : List ω}
      (h : t ∈ running) :
      PoolStep exec k ⟨pending, running, done⟩
        ⟨pending, running.erase t, exec t :: done⟩

/-- Reflexive-transitive closure of `PoolStep`: the executions of one
batch. -/
inductive PoolReach {τ ω : Type} [DecidableEq τ] (exec : τ → ω) (k : Nat)
    (s0 : PoolState τ ω) : PoolState τ ω → Prop where
  | refl : PoolReach exec k s0 s0
  | step {s s' : PoolState τ ω} (h : PoolReach exec k s0 s)
      (hs : PoolStep exec k s s') : PoolReach exec k s0 s'

end Pool

namespace ScrapeRealtor

/-- What scraping one zipcode yields in
`src/scrape_realtor_agents_by_zipcode.py`: either the accumulated agent
dictionaries (possibly empty — a non-200 first page or a page with no
agent cards both end the loop with what was collected so far), or an
exception escaping `scrape_zipcode`, caught by `main`'s `as_completed`
loop and logged. -/
inductive ZipScrape where
  | ok (agents : List (List (String × String)))
  | raises (msg : String)
deriving DecidableEq, Repr

/-- `f'agents_info_{zipcode}.csv'`, the per-zipcode output file name used
both by the writer (line 183) and by the resume filter (line 211). -/
def agentsFileName (z : String) : String := "agents_info_" ++ z ++ ".csv"

/-- The resume filter of `main` (lines 207-212): keep the zipcodes whose
output CSV is not in the directory listing taken at the start of the
run. -/
def zipcodesToScrape (zipcodes : List String) (existing : List String) :
    List String :=
  zipcodes.filter (fun z => !existing.contains (agentsFileName z))

/-- The write decision of `scrape_zipcode` (lines 179-186): a file is
written only when `all_agents` is nonempty; a zipcode with no agents
returns without touching the output directory and without raising. -/
def scrapeWrites (scrape : String → ZipScrape) (z : String) : Bool :=
  match scrape z with
  | .ok [] => false
  | .ok (_ :: _) => true
  | .raises _ => false

/-- Outcome of one whole invocation of `main`: the output-directory
listing afterwards, the zipcodes actually dispatched this run, and those
whose task raised (logged by the `as_completed` loop, which never aborts
siblings). -/
structure RunOutcome where
  files : List String
  processed : List String
  failures : List String
deriving DecidableEq, Repr

/-- One full run of `main` over a fixed network behaviour `scrape`:
filter out already-scraped zipcodes against the point-in-time directory
listing, dispatch the rest, append one output file per zipcode that
found agents. -/
def runOnce (scrape : String → ZipScrape) (zipcodes existing : List String) :
    RunOutcome :=
  let todo := zipcodesToScrape zipcodes existing
  { files := existing ++ (todo.filter (scrapeWrites scrape)).map agentsFileName
    processed := todo
    failures := todo.filter (fun z =>
      match scrape z with
      | .raises _ => true
      | .ok _ => false) }

end ScrapeRealtor

namespace FilterZipcodes

/-- One row of the concatenated zipcode dataframe in
`src/filter_zipcodes.py`, after `pd.to_numeric(..., errors='coerce')`:
string cells are `Option String` (NaN is `none`), numeric cells are
`Option ℚ` (NaN is `none`). -/
structure ZipcodeRow where
  zipcode : Option String
  state_code : Option String
  city : Option String
  county_name : Option String
  population : Option ℚ
  density : Option ℚ
deriving DecidableEq, Repr

/-- ASCII upper-casing of one character, the effect of Python
`str.upper()` on this data. -/
def upChar (c : Char) : Char :=
  if 'a' ≤ c ∧ c ≤ 'z' then Char.ofNat (c.toNat - 32) else c

/-- Python `str.upper()`. -/
def upStr (s : String) : String := String.mk (s.data.map upChar)

/-- ASCII lower-casing of one character, the effect of Python
`str.lower()` (used to model `case=False` matching). -/
def lowChar (c : Char) : Char :=
  if 'A' ≤ c ∧ c ≤ 'Z' then Char.ofNat (c.toNat + 32) else c

/-- Does `hay` start with `needle` (on character lists)? -/
def startsWith : List Char → List Char → Bool
  | _, [] => true
  | [], _ :: _ => false
  | h :: t, n :: ns => h == n && startsWith t ns

/-- Does `needle` occur inside `hay` (on character lists)? -/
def containsChars (hay needle : List Char) : Bool :=
  startsWith hay needle ||
    match hay with
    | [] => false
    | _ :: t => containsChars t needle

/-- `series.str.contains(pat, case=False, na=False)` on one cell: a NaN
cell is `False`, otherwise a case-insensitive substring test. -/
def cellContains (cell : Option String) (pat : String) : Bool :=
  match cell with
  | some s => containsChars (s.data.map lowChar) (pat.data.map lowChar)
  | none => false

/-- `series.str.upper() == value.upper()` on one cell: NaN compares
unequal to every string. -/
def cellUpperEq (cell : Option String) (value : String) : Bool :=
  match cell with
  | some s => upStr s == upStr value
  | none => false

/-- `series >= bound` on one numeric cell: NaN compares `False`. -/
def cellGe (cell : Option ℚ) (bound : ℚ) : Bool :=
  match cell with
  | some v => bound ≤ v
  | none => false

/-- `series <= bound` on one numeric cell: NaN compares `False`. -/
def cellLe (cell : Option ℚ) (bound : ℚ) : Bool :=
  match cell with
  | some v => v ≤ bound
  | none => false

/-- One `if arg: df = df[...]` block of `filter_zipcodes` for a string
argument: Python truthiness means an absent or empty string leaves the
frame untouched. -/
def stageStr (l : List ZipcodeRow) (o : Option String)
    (p : ZipcodeRow → String → Bool) : List ZipcodeRow :=
  match o with
  | some s => if s.isEmpty then l else l.filter (fun r => p r s)
  | none => l

/-- One `if arg is not None: df = df[...]` block of `filter_zipcodes`
for a numeric argument. -/
def stageNum (l : List ZipcodeRow) (o : Option ℚ)
    (p : ZipcodeRow → ℚ → Bool) : List ZipcodeRow :=
  match o with
  | some m => l.filter (fun r => p r m)
  | none => l

/-- `filter_zipcodes(df, ...)` of `src/filter_zipcodes.py` (lines 21-37),
one `df = df[...]` reassignment per provided argument.  The three string
arguments are guarded by Python truthiness (`if state:`), so an absent or
empty string applies no filter; the four numeric arguments are guarded by
`is not None`. -/
def filter_zipcodes (df : List ZipcodeRow)
    (state city county_name : Option String)
    (min_population max_population min_density max_density : Option ℚ) :
    List ZipcodeRow :=
  let df := stageStr df state (fun r s => cellUpperEq r.state_code s)
  let df := stageStr df city (fun r s => cellContains r.city s)
  let df := stageStr df county_name (fun r s => cellContains r.county_name s)
  let df := stageNum df min_population (fun r m => cellGe r.population m)
  let df := stageNum df max_population (fun r m => cellLe r.population m)
  let df := stageNum df min_density (fun r m => cellGe r.density m)
  let df := stageNum df max_density (fun r m => cellLe r.density m)
  df

end FilterZipcodes

namespace Enhance

/-- One row of the zipcode reference table
`config/usa_zipcodes.csv` after the column selection of
`src/data_wrangling/enhance_realtor_agents.py` (lines 16-18). -/
structure ZipRefRow where
  zipCode : String
  uspsCity : String
  countyName : String
deriving DecidableEq, Repr

/-- Python `str.zfill(n)` on the unsigned strings appearing here:
left-pad with `'0'` to length `n`. -/
def zfill (n : Nat) (s : String) : String :=
  String.mk (List.replicate (n - s.data.length) '0' ++ s.data)

/-- Line 19: `zipcodes_df['Zip Code'].astype(str).str.zfill(5)`. -/
def normalizeRef (t : List ZipRefRow) : List ZipRefRow :=
  t.map (fun r => { r with zipCode := zfill 5 r.zipCode })

/-- Lines 24-26: take the zipcode out of `agents_info_{zip}.csv` —
`filename.split('_')[-1].split('.')[0]`, then `zfill(5)`.  String
splitting is done on character lists so proofs can evaluate it. -/
def splitOnChar (sep : Char) (cs : List Char) : List (List Char) :=
  match cs with
  | [] => [[]]
  | c :: rest =>
    let r := splitOnChar sep rest
    if c == sep then [] :: r
    else match r with
      | [] => [[c]]
      | h :: t => (c :: h) :: t

/-- The zipcode derived from an output file name by lines 24-26. -/
def zipFromFilename (filename : String) : String :=
  let afterUnderscore := (splitOnChar '_' filename.data).getLastD []
  let beforeDot := (splitOnChar '.' afterUnderscore).headD []
  zfill 5 (String.mk beforeDot)

/-- An agent dataframe row as a column-name/value association list.  The
scraped CSVs have string cells throughout. -/
abbrev Row : Type := List (String × String)

/-- Value of a column in a row, first occurrence. -/
def getCol (r : Row) (c : String) : Option String :=
  match r with
  | [] => none
  | (c', v) :: t => if c' = c then some v else getCol t c

/-- `df[col] = value` restricted to one row: overwrite the column in
place if present, else append it at the end (pandas adds new columns at
the end of the frame). -/
def setCol (r : Row) (c v : String) : Row :=
  if (getCol r c).isSome then
    r.map (fun p => (p.1, if p.1 = c then v else p.2))
  else r ++ [(c, v)]

/-- The body of the per-file loop (lines 22-41): derive the zipcode from
the file name, look up the first matching reference row (`.iloc[0]` —
`none` models the `IndexError` the code raises when the zipcode is
absent from the table), and set the three location columns on every
row. -/
def enhanceFile (refTable : List ZipRefRow) (filename : String)
    (agents : List Row) : Option (List Row) :=
  match (normalizeRef refTable).filter
      (fun r => r.zipCode == zipFromFilename filename) with
  | [] => none
  | loc :: _ =>
    some (agents.map (fun r =>
      setCol (setCol (setCol r "Zipcode" (zipFromFilename filename))
        "City" loc.uspsCity) "County" loc.countyName))

end Enhance

namespace AgentEmailSearch

/-- Formalization of C5's requirement instantiated at one HTTP status: a
response with this status counts as a failure under the spec's taxonomy,
so the body of such a response must never come back as the successful
`data` of the call. -/
def statusTreatedAsFailure (status : Nat) : Prop :=
  ∀ body : String,
    (search (fun _ => HttpAttempt.response status body) 3).result ≠ .ok body

/-- The five-item batch of C7's scenario, as `(agent_uuid, query)` work
tuples. -/
def c7items : List (String × String) :=
  [("1", "q1"), ("2", "q2"), ("3", "q3"), ("4", "q4"), ("5", "q5")]

/-- Stub parser for the C7 batch: agent 3's response body is malformed
(`json.loads` raises), every other body parses and serializes back. -/
def c7parse (agentId : String) : String → Option String :=
  fun data => if agentId == "3" then none else some data

/-- Task body for the C7 batch: each work tuple runs `search_wrapper`
against a network that always answers with a 200 response. -/
def c7exec (t : String × String) : String :=
  (search_wrapper (fun _ => .response 200 "results") (c7parse t.1) t.1).outcome

/-- C8's concrete input file: the header has an `id` column; the first
record's id cell is empty (NaN), the second record's id is `"a"`. -/
def c8file : CsvFile :=
  ⟨true,
    [⟨none, some "N1", none, none, none, none⟩,
     ⟨some "a", some "N2", none, none, none, none⟩]⟩

end AgentEmailSearch

namespace ScrapeRealtor

/-- A network on which every zipcode page fetch succeeds but no agent
cards are found: `scrape_realtor_agents` returns `[]` on page 1, the
`while` loop ends, `all_agents` is empty, and `scrape_zipcode` returns
without raising and without writing. -/
def emptyScrape : String → ZipScrape := fun _ => .ok []

end ScrapeRealtor

namespace FilterZipcodes

/-- The effective predicate contributed by one truthiness-guarded string
argument of `filter_zipcodes`: an absent or empty argument filters
nothing. -/
def optStr (o : Option String) (p : String → Bool) : Bool :=
  match o with
  | some s => if s.isEmpty then true else p s
  | none => true

/-- The effective predicate contributed by one `is not None`-guarded
numeric argument of `filter_zipcodes`. -/
def optNum (o : Option ℚ) (p : ℚ → Bool) : Bool :=
  match o with
  | some m => p m
  | none => true

/-- The conjunction of the seven optional filters of `filter_zipcodes`,
as a single row predicate. -/
def rowPred (state city county_name : Option String)
    (min_population max_population min_density max_density : Option ℚ)
    (r : ZipcodeRow) : Bool :=
  optStr state (cellUpperEq r.state_code) &&
  optStr city (cellContains r.city) &&
  optStr county_name (cellContains r.county_name) &&
  optNum min_population (cellGe r.population) &&
  optNum max_population (cellLe r.population) &&
  optNum min_density (cellGe r.density) &&
  optNum max_density (cellLe r.density)

/-- One option refines another when it is the same argument or absent:
`weaker o' o` says configuration component `o'` asks for no more
filtering than `o`. -/
def weakerArg {α : Type} (o' o : Option α) : Prop :=
  o' = none ∨ o' = o

end FilterZipcodes

namespace Pool

theorem PoolReach.trans {τ ω : Type} [DecidableEq τ] {exec : τ → ω} {k : Nat}
    {s0 s1 s2 : PoolState τ ω} (h1 : PoolReach exec k s0 s1)
    (h2 : PoolReach exec k s1 s2) : PoolReach exec k s0 s2 := by
  induction h2 with
  | refl => exact h1
  | step h hs ih => exact .step ih hs

/-- The capacity bound is inductive: a dispatch requires strictly fewer
than `k` running items, a completion only shrinks the running list. -/
theorem PoolReach.running_le {τ ω : Type} [DecidableEq τ] {exec : τ → ω}
    {k : Nat} {s0 s : PoolState τ ω} (h : PoolReach exec k s0 s)
    (h0 : s0.running.length ≤ k) : s.running.length ≤ k := by
  induction h with
  | refl => exact h0
  | step h hs ih =>
    cases hs with
    | dispatch hlt => simpa using hlt
    | complete hmem =>
      simp only [PoolState.running] at ih ⊢
      calc (List.erase _ _).length ≤ _ := (List.erase_sublist _ _).length_le
        _ ≤ k := ih

/-- Conservation: over any execution, the multiset
(pending outcomes ++ running outcomes ++ collected outcomes) is
invariant — no item is lost, duplicated or cancelled. -/
theorem PoolReach.perm_invariant {τ ω : Type} [DecidableEq τ]
    {exec : τ → ω} {k : Nat} {s0 s : PoolState τ ω}
    (h : PoolReach exec k s0 s) :
    List.Perm (s.pending.map exec ++ s.running.map exec ++ s.done)
      (s0.pending.map exec ++ s0.running.map exec ++ s0.done) := by
  induction h with
  | refl => exact List.Perm.refl _
  | step h hs ih =>
    refine List.Perm.trans ?_ ih
    cases hs with
    | @dispatch t pending running done hlt =>
      simp only [PoolState.pending, PoolState.running, PoolState.done,
        List.map_cons, List.append_assoc, List.cons_append]
      exact List.perm_middle
    | @complete t pending running done hmem =>
      simp only [PoolState.pending, PoolState.running, PoolState.done,
        List.append_assoc]
      have hrun : List.Perm (running.map exec)
          (exec t :: (running.erase t).map exec) := by
        simpa using (List.perm_cons_erase hmem).map exec
      refine List.Perm.append_left (pending.map exec) ?_
      exact List.perm_middle.trans (hrun.append_right done).symm

/-- A drained execution (no pending, no running work left) has collected
exactly one outcome per submitted item: the collected list is a
permutation of the items' outcomes. -/
theorem PoolReach.drained_perm {τ ω : Type} [DecidableEq τ] {exec : τ → ω}
    {k : Nat} {items : List τ} {done : List ω}
    (h : PoolReach exec k ⟨items, [], []⟩ ⟨[], [], done⟩) :
    List.Perm done (items.map exec) := by
  have := h.perm_invariant
  simpa using this

/-- Any batch can be drained: the sequential schedule (dispatch one item,
run it to completion, collect, repeat) is an execution for every positive
capacity. -/
theorem PoolReach.seq_drain {τ ω : Type} [DecidableEq τ] (exec : τ → ω)
    (k : Nat) (hk : 0 < k) (items : List τ) :
    ∀ done : List ω, PoolReach exec k ⟨items, [], done⟩
      ⟨[], [], (items.map exec).reverse ++ done⟩ := by
  induction items with
  | nil => intro done; simpa using PoolReach.refl
  | cons t rest ih =>
    intro done
    have s1 : PoolStep exec k ⟨t :: rest, [], done⟩ ⟨rest, [t], done⟩ :=
      .dispatch (by simpa using hk)
    have s2 : PoolStep exec k ⟨rest, [t], done⟩ ⟨rest, [], exec t :: done⟩ := by
      have h2 : PoolStep exec k ⟨rest, [t], done⟩
          ⟨rest, List.erase [t] t, exec t :: done⟩ :=
        PoolStep.complete (List.mem_singleton.mpr rfl)
      simpa using h2
    have base : PoolReach exec k ⟨t :: rest, [], done⟩ ⟨rest, [], exec t :: done⟩ :=
      .step (.step .refl s1) s2
    have tail := ih (exec t :: done)
    have : PoolReach exec k ⟨t :: rest, [], done⟩
        ⟨[], [], (rest.map exec).reverse ++ exec t :: done⟩ :=
      base.trans tail
    simpa [List.reverse_cons, List.append_assoc] using this

end Pool


/-- Splitting a list by a boolean predicate partitions its length. -/
theorem length_filter_add_length_filter_not {α : Type} (l : List α) (p : α → Bool) :
    (l.filter p).length + (l.filter (fun a => !p a)).length = l.length := by
  induction l with
  | nil => rfl
  | cons a t ih => cases h : p a <;> simp [List.filter_cons, h] <;> omega

/-- Zipping a mapped list with its source pairs each image with its
preimage. -/
theorem map_zip_self {α β : Type} (f : α → β) (l : List α) :
    (l.map f).zip l = l.map (fun a => (f a, a)) := by
  induction l with
  | nil => rfl
  | cons a t ih => simp [ih]

namespace AgentEmailSearch

/-- Every sleep performed by the retry loop lasts exactly 1 second —
`time.sleep(1)` is the only sleep in `search`. -/
theorem searchAux_sleeps_all_one (op : Nat → HttpAttempt) (m : Nat) :
    ∀ (fuel attempt : Nat),
      ((searchAux op m attempt fuel).sleeps.all (fun s => s == 1)) = true := by
  intro fuel
  induction fuel with
  | zero => intro attempt; rfl
  | succ fuel ih =>
    intro attempt
    unfold searchAux
    cases h : op attempt with
    | response st body => rfl
    | exc e =>
      cases hr : retryable e
      · simp [hr]
      · by_cases hm : attempt + 1 = m
        · simp [hr, hm]
        · simpa [hr, hm] using ih (attempt + 1)

/-- The retry loop issues at most `fuel` requests. -/
theorem searchAux_attempts_le (op : Nat → HttpAttempt) (m : Nat) :
    ∀ (fuel attempt : Nat),
      (searchAux op m attempt fuel).attempts.length ≤ fuel := by
  intro fuel
  induction fuel with
  | zero => intro attempt; simp [searchAux]
  | succ fuel ih =>
    intro attempt
    unfold searchAux
    cases h : op attempt with
    | response st body => simp
    | exc e =>
      cases hr : retryable e
      · simp [hr]
      · by_cases hm : attempt + 1 = m
        · simp [hr, hm]
        · simpa [hr, hm, Nat.succ_le_succ_iff] using ih (attempt + 1)

/-- `generate_search_tuples` is the filter-then-project of the input
rows. -/
theorem generate_search_tuples_eq (df : List AgentRow) (files : List String) :
    generate_search_tuples df files =
      (df.filter (fun r => !hasFile files r.id)).map
        (fun r => (r.id, generate_search_query r)) := by
  induction df with
  | nil => rfl
  | cons r t ih =>
    cases h : hasFile files r.id <;>
      simp [generate_search_tuples, List.filterMap_cons, List.filter_cons, h] <;>
      simpa [generate_search_tuples] using ih

end AgentEmailSearch

namespace FilterZipcodes

/-- A truthiness-guarded stage is a plain filter by the corresponding
optional predicate. -/
theorem stageStr_eq (l : List ZipcodeRow) (o : Option String)
    (p : ZipcodeRow → String → Bool) :
    stageStr l o p = l.filter (fun r => optStr o (p r)) := by
  cases o with
  | none => simp [stageStr, optStr]
  | some s => cases hs : s.isEmpty <;> simp [stageStr, optStr, hs]

/-- A `None`-guarded numeric stage is a plain filter by the
corresponding optional predicate. -/
theorem stageNum_eq (l : List ZipcodeRow) (o : Option ℚ)
    (p : ZipcodeRow → ℚ → Bool) :
    stageNum l o p = l.filter (fun r => optNum o (p r)) := by
  cases o with
  | none => simp [stageNum, optNum]
  | some m => simp [stageNum, optNum]

/-- The seven successive reassignments of `filter_zipcodes` amount to a
single filter by the conjunction of the seven optional predicates. -/
theorem filter_zipcodes_eq_filter (df : List ZipcodeRow)
    (a b c : Option String) (mp Mp md Md : Option ℚ) :
    filter_zipcodes df a b c mp Mp md Md =
      df.filter (rowPred a b c mp Mp md Md) := by
  simp only [filter_zipcodes, stageStr_eq, stageNum_eq, List.filter_filter]
  apply List.filter_congr
  intro r _
  simp [rowPred, Bool.and_comm, Bool.and_left_comm, Bool.and_assoc]

/-- Weakening a truthiness-guarded argument can only let more rows
through. -/
theorem optStr_mono {o' o : Option String} (w : weakerArg o' o)
    (p : String → Bool) (h : optStr o p = true) : optStr o' p = true := by
  rcases w with rfl | rfl
  · rfl
  · exact h

/-- Weakening a `None`-guarded numeric argument can only let more rows
through. -/
theorem optNum_mono {o' o : Option ℚ} (w : weakerArg o' o)
    (p : ℚ → Bool) (h : optNum o p = true) : optNum o' p = true := by
  rcases w with rfl | rfl
  · rfl
  · exact h

/-- Pointwise monotonicity of the combined row predicate under
componentwise weakening of the argument vector. -/
theorem rowPred_mono {a' a b' b c' c : Option String}
    {mp' mp Mp' Mp md' md Md' Md : Option ℚ}
    (wa : weakerArg a' a) (wb : weakerArg b' b) (wc : weakerArg c' c)
    (w4 : weakerArg mp' mp) (w5 : weakerArg Mp' Mp)
    (w6 : weakerArg md' md) (w7 : weakerArg Md' Md) (r : ZipcodeRow)
    (h : rowPred a b c mp Mp md Md r = true) :
    rowPred a' b' c' mp' Mp' md' Md' r = true := by
  simp only [rowPred, Bool.and_eq_true] at h ⊢
  obtain ⟨⟨⟨⟨⟨⟨h1, h2⟩, h3⟩, h4⟩, h5⟩, h6⟩, h7⟩ := h
  exact ⟨⟨⟨⟨⟨⟨optStr_mono wa _ h1, optStr_mono wb _ h2⟩, optStr_mono wc _ h3⟩,
    optNum_mono w4 _ h4⟩, optNum_mono w5 _ h5⟩, optNum_mono w6 _ h6⟩,
    optNum_mono w7 _ h7⟩

end FilterZipcodes

namespace Enhance

/-- Appending a fresh column at the end makes it readable when it was
absent before. -/
theorem getCol_append_single (r : Row) (c v : String)
    (h : getCol r c = none) : getCol (r ++ [(c, v)]) c = some v := by
  induction r with
  | nil => simp [getCol]
  | cons p t ih =>
    obtain ⟨a, b⟩ := p
    by_cases hac : a = c
    · simp [getCol, hac] at h
    · simp only [getCol, List.cons_append, if_neg hac] at h ⊢
      exact ih h

/-- Overwriting an existing column in place makes the new value
readable. -/
theorem getCol_map_set (r : Row) (c v : String)
    (h : (getCol r c).isSome) :
    getCol (r.map (fun p => (p.1, if p.1 = c then v else p.2))) c = some v := by
  induction r with
  | nil => simp [getCol] at h
  | cons p t ih =>
    obtain ⟨a, b⟩ := p
    by_cases hac : a = c
    · subst hac
      simp [getCol]
    · simp only [getCol, if_neg hac] at h
      simp [getCol, hac, ih h]

/-- Setting a column makes that column's value readable afterwards. -/
theorem getCol_setCol_self (r : Row) (c v : String) :
    getCol (setCol r c v) c = some v := by
  unfold setCol
  cases hg : getCol r c with
  | none => simpa [hg] using getCol_append_single r c v hg
  | some w => simpa [hg] using getCol_map_set r c v (by simp [hg])

/-- Setting one column leaves every other column unchanged. -/
theorem getCol_setCol_other (r : Row) (c v col : String) (h : col ≠ c) :
    getCol (setCol r c v) col = getCol r col := by
  have hmap : getCol (r.map (fun p => (p.1, if p.1 = c then v else p.2))) col
      = getCol r col := by
    induction r with
    | nil => rfl
    | cons p t ih =>
      obtain ⟨a, b⟩ := p
      by_cases hacol : a = col
      · have hac : a ≠ c := fun hh => h (by rw [← hacol, hh])
        simp [getCol, hacol, hac, h]
      · simp [getCol, hacol, ih]
  have happ : getCol (r ++ [(c, v)]) col = getCol r col := by
    clear hmap
    induction r with
    | nil => simp [getCol, Ne.symm h]
    | cons p t ih =>
      obtain ⟨a, b⟩ := p
      by_cases hacol : a = col <;> simp [getCol, hacol, ih]
  unfold setCol
  by_cases hg : (getCol r c).isSome <;> simp [hg, hmap, happ]

end Enhance

namespace AgentEmailSearch

/-- C2: the claim asserts exponential backoff — a sleep of
`baseDelay * 2^i` after failed attempt `i`.  Counterexample: for the
spec's own stub (Transient failure on attempts 0 and 1, success on
attempt 2, `maxAttempts = 3`) the code's two sleeps are both exactly 1
second (`time.sleep(1)`), and no base delay whatsoever makes `[1, 1]`
equal to the exponential sequence `[b * 2^0, b * 2^1]`. -/
theorem c2_backoff_not_exponential :
    (search (fun i => if i < 2 then .exc .timeoutError else .response 200 "data") 3).sleeps
        = [1, 1] ∧
    ¬ ∃ baseDelay : ℚ,
        ((search (fun i => if i < 2 then .exc .timeoutError else .response 200 "data") 3).sleeps.map
            (fun s => (s : ℚ)))
          = [baseDelay * 2 ^ 0, baseDelay * 2 ^ 1] := by
  constructor
  · decide
  · rintro ⟨b, hb⟩
    have hs : (search
        (fun i => if i < 2 then HttpAttempt.exc .timeoutError else .response 200 "data") 3).sleeps
        = [1, 1] := by decide
    rw [hs] at hb
    simp at hb
    obtain ⟨h1, h2⟩ := hb
    rw [← h1] at h2
    norm_num at h2

/-- C2 (amended): the retry policy of `search` sleeps a constant 1 second
before each retry — not an exponential backoff — makes at most
`maxAttempts` attempts (default 3), and the stub that fails with a caught
transient exception twice then succeeds on the third attempt yields the
successful result with sleeps `[1, 1]` and attempts `0, 1, 2`. -/
theorem c2_retry_constant_backoff_bounded :
    (∀ (op : Nat → HttpAttempt) (maxRetries : Nat),
        ((search op maxRetries).sleeps.all (fun s => s == 1)) = true) ∧
    (∀ (op : Nat → HttpAttempt) (maxRetries : Nat),
        (search op maxRetries).attempts.length ≤ maxRetries) ∧
    search (fun i => if i < 2 then .exc .timeoutError else .response 200 "data") 3 =
      ⟨.ok "data", [1, 1], [0, 1, 2]⟩ := by
  refine ⟨fun op m => searchAux_sleeps_all_one op m m 0,
    fun op m => searchAux_attempts_le op m m 0, by decide⟩

/-- C5: the claim requires every failing HTTP outcome to be classified —
429 as RateLimited, 5xx as Transient — with only those classes retried
and Permanent failures returned as failures.  Counterexample: the code
never reads `res.status`; a run whose every attempt yields a 429
response returns the raw body as a successful result on the very first
attempt, so a 429 (and likewise a 500) is not treated as a failure at
all, with zero retries and zero sleeps. -/
theorem c5_status_never_classified :
    ¬ statusTreatedAsFailure 429 ∧
    search (fun _ => .response 429 "rate limited") 3 =
      ⟨.ok "rate limited", [], [0]⟩ ∧
    search (fun _ => .response 500 "server error") 3 =
      ⟨.ok "server error", [], [0]⟩ := by
  refine ⟨fun hcl => hcl "rate limited" (by decide), by decide, by decide⟩

/-- C5 (amended): failure handling in `search` dispatches on exception
class only.  Any HTTP response, whatever its status code, is returned as
success on the attempt it arrives, with no retry; an exception outside
the caught tuple propagates immediately with zero retries; a retry sleep
only ever happens when the first attempt raised one of the caught
transient exception classes; and a persistently-raising transient
exception exhausts the 3 attempts and raises the final failure. -/
theorem c5_exception_class_retry_only :
    (∀ (status : Nat) (body : String) (m : Nat),
        search (fun _ => .response status body) (m + 1) = ⟨.ok body, [], [0]⟩) ∧
    (∀ (msg : String) (m : Nat),
        search (fun _ => .exc (.other msg)) (m + 1) =
          ⟨.uncaught (.other msg), [], [0]⟩) ∧
    (∀ (op : Nat → HttpAttempt) (m : Nat), (search op m).sleeps ≠ [] →
        ∃ e, op 0 = .exc e ∧ retryable e = true) ∧
    search (fun _ => .exc .timeoutError) 3 =
      ⟨.raised "Failed after 3 attempts: TimeoutError", [1, 1], [0, 1, 2]⟩ := by
  refine ⟨fun st body m => rfl, fun msg m => rfl, ?_, by decide⟩
  intro op m h
  cases m with
  | zero => simp [search, searchAux] at h
  | succ fuel =>
    cases ho : op 0 with
    | response st body =>
      exact absurd (by simp [search, searchAux, ho]) h
    | exc e =>
      cases hr : retryable e
      · exact absurd (by simp [search, searchAux, ho, hr]) h
      · exact ⟨e, by simp [ho], hr⟩

/-- C5 witness: a stub raising `ConnectionError` on every attempt with
`max_retries = 2` performs a retry sleep, and the theorem then exhibits
the caught transient exception behind it. -/
theorem c5_exception_class_retry_only_witness :
    ∃ e, (fun _ : Nat => HttpAttempt.exc PyExc.connectionError) 0 =
        HttpAttempt.exc e ∧ retryable e = true :=
  c5_exception_class_retry_only.2.2.1
    (fun _ => .exc .connectionError) 2 (by decide)

end AgentEmailSearch

namespace AgentEmailSearch

/-- C3: the claim says that even a run interrupted mid-task leaves, for
each id, either a complete schema-conforming record or nothing at all.
Counterexample: a successful `search_wrapper` run writes through
`open(filepath, 'w')` followed by an in-place `json.dump` — there is no
temporary-file-and-rename step — so the file passes through an
observable freshly-created-empty state at its final path, and a run
interrupted between creation and completion of the dump leaves a
partial record visible. -/
theorem c3_interrupted_write_observable :
    ¬ (∀ s ∈ (search_wrapper (fun _ => .response 200 "body")
        (fun _ => some "record") "a1").states, completeOrAbsent s = true) := by
  decide

/-- C3 (amended): an uninterrupted `search_wrapper` run leaves the id's
file either absent or complete; the file always starts absent (nothing
is written before the success path is reached); and a response whose
body fails `json.loads` yields the error outcome with the file never
touched.  The full claim fails only for runs interrupted inside the
in-place write, as the counterexample shows. -/
theorem c3_sink_valid_or_nothing_amended :
    (∀ (op : Nat → HttpAttempt) (parseDump : String → Option String)
        (agent_uuid : String),
        completeOrAbsent
          ((search_wrapper op parseDump agent_uuid).states.getLastD .absent) = true) ∧
    (∀ (op : Nat → HttpAttempt) (parseDump : String → Option String)
        (agent_uuid : String),
        (search_wrapper op parseDump agent_uuid).states.headD .absent = .absent) ∧
    (∀ (op : Nat → HttpAttempt) (parseDump : String → Option String)
        (agent_uuid : String) (data : String),
        (search op 3).result = .ok data → parseDump data = none →
        search_wrapper op parseDump agent_uuid =
          ⟨errorMsg agent_uuid "JSONDecodeError", [.absent]⟩) := by
  refine ⟨?_, ?_, ?_⟩
  · intro op parseDump agent_uuid
    unfold search_wrapper
    cases hres : (search op 3).result
    case ok data => cases hpd : parseDump data <;> simp [hpd, completeOrAbsent]
    all_goals simp [completeOrAbsent]
  · intro op parseDump agent_uuid
    unfold search_wrapper
    cases hres : (search op 3).result
    case ok data => cases hpd : parseDump data <;> simp [hpd]
    all_goals simp
  · intro op parseDump agent_uuid data hres hpd
    simp only [search_wrapper, hres, hpd]

/-- C3 witness: a network answering 200 with an unparseable body yields
the JSON-decode error outcome and never touches the file. -/
theorem c3_sink_valid_or_nothing_amended_witness :
    search_wrapper (fun _ => HttpAttempt.response 200 "bad")
        (fun _ => none) "a1" =
      ⟨errorMsg "a1" "JSONDecodeError", [FileState.absent]⟩ :=
  c3_sink_valid_or_nothing_amended.2.2 (fun _ => .response 200 "bad")
    (fun _ => none) "a1" "bad" (by decide) rfl

/-- C8: the claim says each input record lacking a non-empty id is
rejected individually with a MissingIdentifier error while the rest of
the same file keeps being enumerated.  Counterexample: in a two-record
file whose header does have an `id` column, the record with an empty id
cell is not rejected — `astype(str)` coerces the NaN to the literal
string "nan" and the record is enumerated alongside the valid one, so
the enumeration differs from the claim's skip-invalid-records
enumeration. -/
theorem c8_missing_identifier_not_rejected :
    (enumerateFile c8file).map AgentRow.id = ["nan", "a"] ∧
    ¬ ((enumerateFile c8file).map AgentRow.id =
        (c8file.rows.filter validId).map (fun r => coerceId r.id)) := by
  exact ⟨by decide, by decide⟩

/-- C8 (amended): identifier validation in `main` is file-level, not
record-level: a CSV whose header lacks an `id` column is skipped whole
(with an error message) while the remaining files are still enumerated;
within a file that has the column, every record is enumerated, and a
missing id cell is coerced to the string "nan" rather than rejected. -/
theorem c8_file_level_skip_amended :
    (∀ (rows : List CsvRow) (fs : List CsvFile),
        enumerateFiles (⟨false, rows⟩ :: fs) = enumerateFiles fs) ∧
    (∀ (rows : List CsvRow) (fs : List CsvFile),
        enumerateFiles (⟨true, rows⟩ :: fs) =
          rows.map toAgentRow ++ enumerateFiles fs) ∧
    (enumerateFile c8file).map AgentRow.id = ["nan", "a"] := by
  refine ⟨fun rows fs => ?_, fun rows fs => ?_, by decide⟩
  · simp [enumerateFiles, enumerateFile]
  · simp [enumerateFiles, enumerateFile]

end AgentEmailSearch

namespace AgentEmailSearch

/-- C1: resumability of work discovery.  With pairwise-distinct ids (the
WorkItem contract), let S be the set of ids whose output file already
exists.  Then `generate_search_tuples` schedules exactly the rows whose
id is not in S, in input order; their count is N − |S|; no scheduled id
lies in S; and any drained scheduler execution over the scheduled tuples
collects exactly N − |S| outcomes. -/
theorem c1_resumability (df : List AgentRow) (files : List String)
    (hnd : (df.map AgentRow.id).Nodup) :
    (generate_search_tuples df files).map Prod.fst =
        (df.map AgentRow.id).filter (fun i => !hasFile files i) ∧
    (generate_search_tuples df files).length =
        df.length - ((df.map AgentRow.id).filter (hasFile files)).toFinset.card ∧
    (∀ p ∈ generate_search_tuples df files,
        p.1 ∉ ((df.map AgentRow.id).filter (hasFile files)).toFinset) ∧
    (∀ (exec : String × String → String) (k : Nat) (done : List String),
        Pool.PoolReach exec k ⟨generate_search_tuples df files, [], []⟩
          ⟨[], [], done⟩ →
        done.length =
          df.length -
            ((df.map AgentRow.id).filter (hasFile files)).toFinset.card) := by
  have hmap : (generate_search_tuples df files).map Prod.fst =
      (df.map AgentRow.id).filter (fun i => !hasFile files i) := by
    rw [generate_search_tuples_eq, List.filter_map]
    simp only [List.map_map]
    rfl
  have hcard : ((df.map AgentRow.id).filter (hasFile files)).toFinset.card =
      ((df.map AgentRow.id).filter (hasFile files)).length :=
    List.toFinset_card_of_nodup (hnd.filter _)
  have hsum := length_filter_add_length_filter_not (df.map AgentRow.id)
    (hasFile files)
  have hN : (df.map AgentRow.id).length = df.length := List.length_map df _
  have hlen : (generate_search_tuples df files).length =
      df.length -
        ((df.map AgentRow.id).filter (hasFile files)).toFinset.card := by
    have hlen2 : (generate_search_tuples df files).length =
        ((df.map AgentRow.id).filter (fun i => !hasFile files i)).length := by
      rw [← hmap, List.length_map]
    omega
  refine ⟨hmap, hlen, ?_, ?_⟩
  · intro p hp
    rw [generate_search_tuples_eq] at hp
    simp only [List.mem_map] at hp
    obtain ⟨r, hr, rfl⟩ := hp
    obtain ⟨hrdf, hrfile⟩ := List.mem_filter.mp hr
    simp only [List.mem_toFinset, List.mem_filter]
    rintro ⟨-, hfile⟩
    simp [hfile] at hrfile
  · intro exec k done hreach
    have hlend : done.length = (generate_search_tuples df files).length := by
      simpa [List.length_map] using
        (Pool.PoolReach.drained_perm hreach).length_eq
    rw [hlend, hlen]

/-- C1 witness: two rows with ids "a" and "b", the output directory
already holding "b.json": one work item is scheduled and it is for
"a". -/
theorem c1_resumability_witness :
    (generate_search_tuples
        [⟨"a", some "A", none, none, none, none⟩,
         ⟨"b", some "B", none, none, none, none⟩] ["b.json"]).map Prod.fst =
      (([⟨"a", some "A", none, none, none, none⟩,
         ⟨"b", some "B", none, none, none, none⟩] : List AgentRow).map
          AgentRow.id).filter (fun i => !hasFile ["b.json"] i) ∧
    (generate_search_tuples
        [⟨"a", some "A", none, none, none, none⟩,
         ⟨"b", some "B", none, none, none, none⟩] ["b.json"]).length =
      2 - ((([⟨"a", some "A", none, none, none, none⟩,
         ⟨"b", some "B", none, none, none, none⟩] : List AgentRow).map
          AgentRow.id).filter (hasFile ["b.json"])).toFinset.card ∧
    (∀ p ∈ generate_search_tuples
        [⟨"a", some "A", none, none, none, none⟩,
         ⟨"b", some "B", none, none, none, none⟩] ["b.json"],
        p.1 ∉ ((([⟨"a", some "A", none, none, none, none⟩,
         ⟨"b", some "B", none, none, none, none⟩] : List AgentRow).map
          AgentRow.id).filter (hasFile ["b.json"])).toFinset) ∧
    (∀ (exec : String × String → String) (k : Nat) (done : List String),
        Pool.PoolReach exec k
          ⟨generate_search_tuples
            [⟨"a", some "A", none, none, none, none⟩,
             ⟨"b", some "B", none, none, none, none⟩] ["b.json"], [], []⟩
          ⟨[], [], done⟩ →
        done.length =
          2 - ((([⟨"a", some "A", none, none, none, none⟩,
             ⟨"b", some "B", none, none, none, none⟩] : List AgentRow).map
              AgentRow.id).filter (hasFile ["b.json"])).toFinset.card) :=
  c1_resumability
    [⟨"a", some "A", none, none, none, none⟩,
     ⟨"b", some "B", none, none, none, none⟩] ["b.json"] (by decide)

/-- C4: bounded concurrency.  For any execution of the worker pool with
capacity `max_workers = k` over the work tuples discovered for an input
frame and output listing, every reachable scheduler state has at most
`k` tasks simultaneously in flight. -/
theorem c4_bounded_concurrency (df : List AgentRow) (files : List String)
    (exec : String × String → String) (k : Nat)
    (s : Pool.PoolState (String × String) String)
    (h : Pool.PoolReach exec k ⟨generate_search_tuples df files, [], []⟩ s) :
    s.running.length ≤ k :=
  Pool.PoolReach.running_le h (by simp)

/-- C4 witness: with capacity 2 and two discovered work items, the state
after dispatching the first item has one task in flight, within the
bound. -/
theorem c4_bounded_concurrency_witness :
    (Pool.PoolState.mk [("b", "\"B\" (email OR contact)")]
        [("a", "\"A\" (email OR contact)")] ([] : List String)).running.length
      ≤ 2 :=
  c4_bounded_concurrency
    [⟨"a", some "A", none, none, none, none⟩,
     ⟨"b", some "B", none, none, none, none⟩] [] (fun t => t.1) 2 _
    (Pool.PoolReach.step .refl (Pool.PoolStep.dispatch (by decide)))

/-- C7: partial-failure isolation.  Every drained pool execution collects
exactly one outcome per submitted item, whatever the outcomes are; and
in the concrete 5-item batch whose item 3 always fails permanently (its
response body never parses), every drained execution still contains the
success outcomes of items 1, 2, 4, 5 together with item 3's error
outcome. -/
theorem c7_partial_failure_isolation :
    (∀ (exec : String × String → String) (k : Nat)
        (items : List (String × String)) (done : List String),
        Pool.PoolReach exec k ⟨items, [], []⟩ ⟨[], [], done⟩ →
        done.length = items.length) ∧
    (∀ (k : Nat) (done : List String),
        Pool.PoolReach c7exec k ⟨c7items, [], []⟩ ⟨[], [], done⟩ →
        successMsg "1" ∈ done ∧ successMsg "2" ∈ done ∧
        errorMsg "3" "JSONDecodeError" ∈ done ∧
        successMsg "4" ∈ done ∧ successMsg "5" ∈ done ∧
        done.length = 5) := by
  constructor
  · intro exec k items done h
    simpa [List.length_map] using (Pool.PoolReach.drained_perm h).length_eq
  · intro k done h
    have hperm := Pool.PoolReach.drained_perm h
    have hmap : c7items.map c7exec =
        [successMsg "1", successMsg "2", errorMsg "3" "JSONDecodeError",
         successMsg "4", successMsg "5"] := by decide
    rw [hmap] at hperm
    refine ⟨hperm.mem_iff.mpr (by simp), hperm.mem_iff.mpr (by simp),
      hperm.mem_iff.mpr (by simp), hperm.mem_iff.mpr (by simp),
      hperm.mem_iff.mpr (by simp), by simpa using hperm.length_eq⟩

/-- C7 witness: the sequential drain of the 5-item batch at capacity 1
collects all five outcomes, items 1, 2, 4, 5 succeeding and item 3
failing. -/
theorem c7_partial_failure_isolation_witness :
    successMsg "1" ∈ (c7items.map c7exec).reverse ++ ([] : List String) ∧
    successMsg "2" ∈ (c7items.map c7exec).reverse ++ ([] : List String) ∧
    errorMsg "3" "JSONDecodeError" ∈ (c7items.map c7exec).reverse ++ ([] : List String) ∧
    successMsg "4" ∈ (c7items.map c7exec).reverse ++ ([] : List String) ∧
    successMsg "5" ∈ (c7items.map c7exec).reverse ++ ([] : List String) ∧
    ((c7items.map c7exec).reverse ++ ([] : List String)).length = 5 :=
  c7_partial_failure_isolation.2 1 _
    (Pool.PoolReach.seq_drain c7exec 1 (by decide) c7items [])

end AgentEmailSearch

namespace ScrapeRealtor

/-- C6: the claim says the second run processes zero items whenever the
first fully succeeded.  Counterexample: zipcode "99999" scrapes cleanly
but finds no agents; the first run has no failure, yet `scrape_zipcode`
writes a file only when `all_agents` is nonempty, so no completion
record appears and the second run schedules and processes the very same
zipcode again. -/
theorem c6_second_run_processes_again :
    ¬ ((runOnce emptyScrape ["99999"] []).failures = [] →
        (runOnce emptyScrape ["99999"]
          (runOnce emptyScrape ["99999"] []).files).processed = []) := by
  decide

/-- C6 (amended): the second run processes zero items whenever the first
run fully succeeded AND every processed item actually produced at least
one agent record (hence an output file) — an item scraping zero agents
is never marked complete and is re-processed by every later run.  The
no-overwrite half of the claim holds unconditionally: a run only appends
output files whose names were absent from the directory when the run
started. -/
theorem c6_idempotence_amended (scrape : String → ZipScrape)
    (zipcodes existing : List String) :
    ((∀ z ∈ (runOnce scrape zipcodes existing).processed,
        scrapeWrites scrape z = true) →
      (runOnce scrape zipcodes
        (runOnce scrape zipcodes existing).files).processed = []) ∧
    (∃ newFiles, (runOnce scrape zipcodes existing).files =
        existing ++ newFiles ∧ ∀ f ∈ newFiles, f ∉ existing) := by
  constructor
  · intro hall
    simp only [runOnce] at hall ⊢
    unfold zipcodesToScrape at hall ⊢
    apply List.eq_nil_iff_forall_not_mem.mpr
    intro z hz
    obtain ⟨hzin, hnotc⟩ := List.mem_filter.mp hz
    have hmem : agentsFileName z ∈
        existing ++ ((zipcodes.filter
          (fun z => !existing.contains (agentsFileName z))).filter
            (scrapeWrites scrape)).map agentsFileName := by
      by_cases he : agentsFileName z ∈ existing
      · exact List.mem_append_left _ he
      · refine List.mem_append_right _ ?_
        have hz_todo : z ∈ zipcodes.filter
            (fun z => !existing.contains (agentsFileName z)) := by
          refine List.mem_filter.mpr ⟨hzin, ?_⟩
          simpa using he
        have hw := hall z hz_todo
        exact List.mem_map_of_mem agentsFileName
          (List.mem_filter.mpr ⟨hz_todo, hw⟩)
    have hc : (existing ++ ((zipcodes.filter
          (fun z => !existing.contains (agentsFileName z))).filter
            (scrapeWrites scrape)).map agentsFileName).contains
          (agentsFileName z) = true := by simpa using hmem
    rw [hc] at hnotc
    simp at hnotc
  · refine ⟨((zipcodesToScrape zipcodes existing).filter
        (scrapeWrites scrape)).map agentsFileName, rfl, ?_⟩
    intro f hf
    simp only [List.mem_map] at hf
    obtain ⟨z, hzf, rfl⟩ := hf
    have hz_todo := (List.mem_filter.mp hzf).1
    have h2 := (List.mem_filter.mp hz_todo).2
    simpa using h2

/-- C6 witness: a single-zipcode batch whose scrape finds one agent:
after the successful first run, the second run processes nothing. -/
theorem c6_idempotence_amended_witness :
    (runOnce (fun _ => ZipScrape.ok [[("Name", "X")]]) ["11111"]
      ((runOnce (fun _ => ZipScrape.ok [[("Name", "X")]])
        ["11111"] []).files)).processed = [] :=
  (c6_idempotence_amended (fun _ => .ok [[("Name", "X")]]) ["11111"] []).1
    (by decide)

end ScrapeRealtor

namespace FilterZipcodes

/-- C9: `filter_zipcodes` with every argument absent returns the input
unchanged; with any arguments the result is a sublist of the input —
rows are kept verbatim, never added or altered, only removed; and
supplying any one additional filter argument can only shrink the result:
the output of a configuration is a sublist of the output of the same
configuration with that argument dropped. -/
theorem c9_filter_only_removes :
    (∀ df, filter_zipcodes df none none none none none none none = df) ∧
    (∀ df a b c mp Mp md Md,
        List.Sublist (filter_zipcodes df a b c mp Mp md Md) df) ∧
    (∀ df a b c mp Mp md Md,
        List.Sublist (filter_zipcodes df a b c mp Mp md Md)
          (filter_zipcodes df none b c mp Mp md Md) ∧
        List.Sublist (filter_zipcodes df a b c mp Mp md Md)
          (filter_zipcodes df a none c mp Mp md Md) ∧
        List.Sublist (filter_zipcodes df a b c mp Mp md Md)
          (filter_zipcodes df a b none mp Mp md Md) ∧
        List.Sublist (filter_zipcodes df a b c mp Mp md Md)
          (filter_zipcodes df a b c none Mp md Md) ∧
        List.Sublist (filter_zipcodes df a b c mp Mp md Md)
          (filter_zipcodes df a b c mp none md Md) ∧
        List.Sublist (filter_zipcodes df a b c mp Mp md Md)
          (filter_zipcodes df a b c mp Mp none Md) ∧
        List.Sublist (filter_zipcodes df a b c mp Mp md Md)
          (filter_zipcodes df a b c mp Mp md none)) := by
  refine ⟨fun df => rfl, ?_, ?_⟩
  · intro df a b c mp Mp md Md
    rw [filter_zipcodes_eq_filter]
    exact List.filter_sublist df
  · intro df a b c mp Mp md Md
    refine ⟨?_, ?_, ?_, ?_, ?_, ?_, ?_⟩ <;>
      rw [filter_zipcodes_eq_filter, filter_zipcodes_eq_filter] <;>
      apply List.monotone_filter_right <;>
      intro r h
    · exact rowPred_mono (Or.inl rfl) (Or.inr rfl) (Or.inr rfl) (Or.inr rfl)
        (Or.inr rfl) (Or.inr rfl) (Or.inr rfl) r h
    · exact rowPred_mono (Or.inr rfl) (Or.inl rfl) (Or.inr rfl) (Or.inr rfl)
        (Or.inr rfl) (Or.inr rfl) (Or.inr rfl) r h
    · exact rowPred_mono (Or.inr rfl) (Or.inr rfl) (Or.inl rfl) (Or.inr rfl)
        (Or.inr rfl) (Or.inr rfl) (Or.inr rfl) r h
    · exact rowPred_mono (Or.inr rfl) (Or.inr rfl) (Or.inr rfl) (Or.inl rfl)
        (Or.inr rfl) (Or.inr rfl) (Or.inr rfl) r h
    · exact rowPred_mono (Or.inr rfl) (Or.inr rfl) (Or.inr rfl) (Or.inr rfl)
        (Or.inl rfl) (Or.inr rfl) (Or.inr rfl) r h
    · exact rowPred_mono (Or.inr rfl) (Or.inr rfl) (Or.inr rfl) (Or.inr rfl)
        (Or.inr rfl) (Or.inl rfl) (Or.inr rfl) r h
    · exact rowPred_mono (Or.inr rfl) (Or.inr rfl) (Or.inr rfl) (Or.inr rfl)
        (Or.inr rfl) (Or.inr rfl) (Or.inl rfl) r h

end FilterZipcodes

namespace Enhance

/-- C10: for an agents CSV whose filename-derived zipcode occurs in the
zipcode reference table, the enhancement step preserves the row count;
the three location columns Zipcode, City, County carry the same three
values on every output row; and zipping output rows with their input
rows, every other column reads exactly as it did before. -/
theorem c10_enhance_frame (refTable : List ZipRefRow) (filename : String)
    (agents out : List Row)
    (h : enhanceFile refTable filename agents = some out) :
    out.length = agents.length ∧
    (∃ z ci co, ∀ r ∈ out,
        getCol r "Zipcode" = some z ∧ getCol r "City" = some ci ∧
        getCol r "County" = some co) ∧
    (∀ pr ∈ out.zip agents, ∀ col : String,
        col ≠ "Zipcode" → col ≠ "City" → col ≠ "County" →
        getCol pr.1 col = getCol pr.2 col) := by
  unfold enhanceFile at h
  cases hm : (normalizeRef refTable).filter
      (fun r => r.zipCode == zipFromFilename filename) with
  | nil => rw [hm] at h; simp at h
  | cons loc rest =>
    rw [hm] at h
    simp only [Option.some.injEq] at h
    subst h
    refine ⟨by simp, ⟨zipFromFilename filename, loc.uspsCity, loc.countyName, ?_⟩, ?_⟩
    · intro r hr
      simp only [List.mem_map] at hr
      obtain ⟨r0, hr0, rfl⟩ := hr
      refine ⟨?_, ?_, ?_⟩
      · rw [getCol_setCol_other _ _ _ _ (by decide),
          getCol_setCol_other _ _ _ _ (by decide), getCol_setCol_self]
      · rw [getCol_setCol_other _ _ _ _ (by decide), getCol_setCol_self]
      · rw [getCol_setCol_self]
    · intro pr hpr col h1 h2 h3
      rw [map_zip_self] at hpr
      simp only [List.mem_map] at hpr
      obtain ⟨r0, hr0, rfl⟩ := hpr
      simp only
      rw [getCol_setCol_other _ _ _ _ h3, getCol_setCol_other _ _ _ _ h2,
        getCol_setCol_other _ _ _ _ h1]

/-- C10 witness: one reference row for zipcode 00123 and a one-row agent
file named `agents_info_123.csv`: the row keeps its Name and Phone cells
and gains the three location columns. -/
theorem c10_enhance_frame_witness :
    ([[("Name", "X"), ("Phone", "555"), ("Zipcode", "00123"),
        ("City", "Fargo"), ("County", "Cass")]] : List Row).length =
      ([[("Name", "X"), ("Phone", "555")]] : List Row).length ∧
    (∃ z ci co, ∀ r ∈ ([[("Name", "X"), ("Phone", "555"), ("Zipcode", "00123"),
        ("City", "Fargo"), ("County", "Cass")]] : List Row),
        getCol r "Zipcode" = some z ∧ getCol r "City" = some ci ∧
        getCol r "County" = some co) ∧
    (∀ pr ∈ ([[("Name", "X"), ("Phone", "555"), ("Zipcode", "00123"),
        ("City", "Fargo"), ("County", "Cass")]] : List Row).zip
          ([[("Name", "X"), ("Phone", "555")]] : List Row),
        ∀ col : String,
        col ≠ "Zipcode" → col ≠ "City" → col ≠ "County" →
        getCol pr.1 col = getCol pr.2 col) :=
  c10_enhance_frame [⟨"123", "Fargo", "Cass"⟩] "agents_info_123.csv"
    [[("Name", "X"), ("Phone", "555")]]
    [[("Name", "X"), ("Phone", "555"), ("Zipcode", "00123"),
      ("City", "Fargo"), ("County", "Cass")]] (by decide)

end Enhance
